import Mathlib

/-!
Shallow embedding of the `lista-compras` grocery-list application
(`src/app.py`, with the near-duplicate variant in `src/unnamed/part_000`).

The remote spreadsheet is modelled as a pure value: a worksheet is a grid of
text cells (`List (List String)`), a spreadsheet is a list of titled sheets.
Python floats are idealised as exact rationals (`ℚ`); the decimal parser and
the `"{:g}".format` renderer below follow the textual algorithms of the
source (`pd.to_numeric` with coercion, six-significant-digit general format).
Literals such as `inf`/`nan`/underscored digits that `pd.to_numeric` would
also accept are outside the inputs considered here.  `gspread` cell IO is
modelled as the identity on the stored text (the sheet locale uses the comma
decimal separator, which is exactly what `write_df_to_worksheet` produces and
`get_all_values` returns).
-/

deriving instance DecidableEq for Except

attribute [local semireducible] Rat.add Rat.mul Rat.inv Rat.sub

namespace ListaCompras

/-- `CATEGORIAS` from `app.py`: the fixed ordered category enumeration. -/
def CATEGORIAS : List String :=
  ["🥦 Verduras", "🍓 Frutas", "🥩 Carnes", "🛒 Abarrotes", "🧼 Limpieza", "📦 Otros"]

/-- `UNIDADES` from `app.py`: the fixed unit enumeration. -/
def UNIDADES : List String :=
  ["U (Unidad)", "kg", "g", "lb (Libra)", "L (Litro)", "ml"]

/-- The expected column set of `read_worksheet_as_df`. -/
def expectedCols : List String :=
  ["category", "name", "quantity", "unit", "price", "is_checked"]

/-! ### Decimal text: parsing (`pd.to_numeric(..., errors='coerce')`) -/

/-- Numeric value of a digit list (most significant first). -/
def digitsToNat (cs : List Char) : ℕ :=
  cs.foldl (fun a c => 10 * a + (c.toNat - '0'.toNat)) 0

/-- Parse an unsigned decimal literal `digits [. digits] [(e|E) [sign] digits]`,
requiring at least one mantissa digit and no trailing garbage. -/
def parseDecimalCore (cs : List Char) : Option ℚ :=
  let ip := cs.takeWhile Char.isDigit
  let r1 := cs.dropWhile Char.isDigit
  let fpr : List Char × List Char :=
    match r1 with
    | '.' :: rest => (rest.takeWhile Char.isDigit, rest.dropWhile Char.isDigit)
    | _ => ([], r1)
  let fp := fpr.1
  let r2 := fpr.2
  if ip.isEmpty && fp.isEmpty then none
  else
    let mant : ℚ := ((digitsToNat ip * 10 ^ fp.length + digitsToNat fp : ℕ) : ℚ) /
      ((10 ^ fp.length : ℕ) : ℚ)
    match r2 with
    | [] => some mant
    | 'e' :: rest => parseExp mant rest
    | 'E' :: rest => parseExp mant rest
    | _ => none
where
  /-- Parse the exponent part after `e`/`E`. -/
  parseExp (mant : ℚ) (rest : List Char) : Option ℚ :=
    let sgnRest : ℤ × List Char :=
      match rest with
      | '+' :: t => (1, t)
      | '-' :: t => (-1, t)
      | _ => (1, rest)
    let ed := sgnRest.2.takeWhile Char.isDigit
    let r3 := sgnRest.2.dropWhile Char.isDigit
    if ed.isEmpty || !r3.isEmpty then none
    else some (mant * (10 : ℚ) ^ (sgnRest.1 * (digitsToNat ed : ℤ)))

/-- Parse a decimal number the way `pd.to_numeric(s, errors='coerce')` does
(a parse failure is reported as `none`, the model of `NaN`). -/
def parseDecimal (s : String) : Option ℚ :=
  match s.toList with
  | '+' :: rest => parseDecimalCore rest
  | '-' :: rest => (parseDecimalCore rest).map Neg.neg
  | cs => parseDecimalCore cs

/-! ### Decimal text: rendering (`"{:g}".format`) -/

/-- Decimal digit count of a positive natural number. -/
def numDigits (n : ℕ) : ℕ := (toString n).length

/-- Round a nonnegative rational to the nearest natural, ties to even. -/
def roundHalfEvenNat (r : ℚ) : ℕ :=
  let n := (⌊r⌋).toNat
  let f := r - (n : ℚ)
  if f < 1 / 2 then n
  else if 1 / 2 < f then n + 1
  else if n % 2 = 0 then n else n + 1

/-- Drop trailing `'0'` characters. -/
def stripZeros (s : String) : String :=
  String.mk ((s.toList.reverse.dropWhile (fun c => c = '0')).reverse)

/-- Characterwise single-character replacement: the effect of
`str.replace(a, b)` for a one-character pattern. -/
def replaceChar (s : String) (a b : Char) : String :=
  String.mk (s.toList.map (fun c => if c = a then b else c))

/-- Characterwise ASCII lowering: the effect of `str.lower()` on the ASCII
titles compared here. -/
def strToLower (s : String) : String :=
  String.mk (s.toList.map Char.toLower)

/-- Python `"{:g}".format` of a positive rational: six significant digits,
fixed-point notation for exponents in `[-4, 6)`, otherwise scientific
notation with a signed two-digit exponent, trailing zeros removed. -/
def formatGPos (q : ℚ) : String :=
  let da := numDigits q.num.natAbs
  let db := numDigits q.den
  let e0 : ℤ := (da : ℤ) - (db : ℤ)
  let e1 : ℤ := if q < (10 : ℚ) ^ e0 then e0 - 1 else e0
  let n0 := roundHalfEvenNat (q * (10 : ℚ) ^ ((5 : ℤ) - e1))
  let n := if n0 = 1000000 then 100000 else n0
  let e : ℤ := if n0 = 1000000 then e1 + 1 else e1
  let ds := toString n
  if -4 ≤ e ∧ e < 6 then
    if 0 ≤ e then
      let k := e.toNat + 1
      let ip := String.mk (ds.toList.take k)
      let fp := stripZeros (String.mk (ds.toList.drop k))
      if fp = "" then ip else ip ++ "." ++ fp
    else
      let zeros := String.mk (List.replicate (e.natAbs - 1) '0')
      "0." ++ zeros ++ stripZeros ds
  else
    let fp := stripZeros (String.mk (ds.toList.drop 1))
    let mant := if fp = "" then String.mk (ds.toList.take 1)
      else String.mk (ds.toList.take 1) ++ "." ++ fp
    let ea := toString e.natAbs
    let ea2 := if ea.length < 2 then "0" ++ ea else ea
    mant ++ "e" ++ (if e < 0 then "-" else "+") ++ ea2

/-- Python `"{:g}".format` on an exact decimal value. -/
def formatG (q : ℚ) : String :=
  if q = 0 then "0"
  else if q < 0 then "-" ++ formatGPos (-q)
  else formatGPos q

/-! ### The record model

`RawItem` is one row of the dataframe produced by `read_worksheet_as_df`:
every field is a text cell, where `none` models a pandas missing value
(`pd.NA` for a synthesized absent column, `NaN` for a category outside the
`CATEGORIAS` enumeration after the `pd.Categorical` cast).  `Item` is one row
after the load-time coercions of `get_list_data`. -/

structure RawItem where
  category : Option String
  name : Option String
  quantity : Option String
  unit : Option String
  price : Option String
  is_checked : Option String
deriving DecidableEq, Repr

structure Item where
  category : Option String
  name : Option String
  quantity : ℚ
  unit : Option String
  price : ℚ
  is_checked : Bool
deriving DecidableEq, Repr

/-- Cell of `row` under column `col` of `header` (pandas column access on the
dataframe built from the grid); `none` when the header lacks the column. -/
def cellAt (header row : List String) (col : String) : Option String :=
  (header.findIdx? (fun h => h == col)).bind (fun i => row.get? i)

/-- One record of `pd.DataFrame(records, columns=header)` restricted to the
expected columns, after the `pd.Categorical(df['category'], CATEGORIAS)` cast
(which turns any category text outside the enumeration into `NaN`). -/
def rawOfRow (header row : List String) : RawItem where
  category := (cellAt header row "category").bind
    (fun c => if c ∈ CATEGORIAS then some c else none)
  name := cellAt header row "name"
  quantity := cellAt header row "quantity"
  unit := cellAt header row "unit"
  price := cellAt header row "price"
  is_checked := cellAt header row "is_checked"

/-! ### The sort applied by `read_worksheet_as_df`

`df.sort_values(by=["category", "name"])` sorts by the category's position in
`CATEGORIAS` and then by name, missing values last (pandas default
`na_position='last'`), with a stable algorithm (`np.lexsort`).  Insertion
sort below is stable as well. -/

/-- Position of a category cell in the `CATEGORIAS` enumeration; missing
(or out-of-enumeration) categories get the one-past-the-end rank. -/
def catRank (c : Option String) : ℕ :=
  match c with
  | some s => CATEGORIAS.findIdx (fun x => x == s)
  | none => CATEGORIAS.length

/-- Missing names sort after present names within a category group. -/
def nameRank (n : Option String) : ℕ :=
  match n with
  | some _ => 0
  | none => 1

/-- Lexicographic code-point comparison on character lists: Python's string
order, written to reduce inside the proof kernel. -/
def charLeb : List Char → List Char → Bool
  | [], _ => true
  | _ :: _, [] => false
  | a :: as, b :: bs => if a < b then true else if b < a then false else charLeb as bs

theorem charLeb_total : ∀ a b : List Char, charLeb a b = true ∨ charLeb b a = true := by
  intro a
  induction a with
  | nil => intro b; left; rfl
  | cons x xs ih =>
    intro b
    cases b with
    | nil => right; rfl
    | cons y ys =>
      by_cases h1 : x < y
      · left; simp [charLeb, h1]
      · by_cases h2 : y < x
        · right; simp [charLeb, h2]
        · have hxy : x = y := le_antisymm (not_lt.mp h2) (not_lt.mp h1)
          subst hxy
          rcases ih ys with h | h
          · left; simpa [charLeb] using h
          · right; simpa [charLeb] using h

theorem charLeb_trans : ∀ a b c : List Char,
    charLeb a b = true → charLeb b c = true → charLeb a c = true := by
  intro a
  induction a with
  | nil => intro b c _ _; rfl
  | cons x xs ih =>
    intro b c hab hbc
    cases b with
    | nil => simp [charLeb] at hab
    | cons y ys =>
      cases c with
      | nil => simp [charLeb] at hbc
      | cons z zs =>
        by_cases h1 : x < y
        · by_cases h2 : y < z
          · simp [charLeb, lt_trans h1 h2]
          · by_cases h3 : z < y
            · simp [charLeb, h2, h3] at hbc
            · have : y = z := le_antisymm (not_lt.mp h3) (not_lt.mp h2)
              subst this
              simp [charLeb, h1]
        · by_cases h4 : y < x
          · simp [charLeb, h1, h4] at hab
          · have hxy : x = y := le_antisymm (not_lt.mp h4) (not_lt.mp h1)
            subst hxy
            simp only [charLeb, if_neg (lt_irrefl x)] at hab
            by_cases h2 : x < z
            · simp [charLeb, h2]
            · by_cases h3 : z < x
              · simp [charLeb, h2, h3] at hbc
              · have hxz : x = z := le_antisymm (not_lt.mp h3) (not_lt.mp h2)
                subst hxz
                simp only [charLeb, if_neg (lt_irrefl x)] at hbc ⊢
                exact ih ys zs hab hbc

/-- Python's string order (`sorted`, pandas name sort): lexicographic by
code point. -/
def strLE (a b : String) : Prop := charLeb a.toList b.toList = true

instance strLE.decidableRel : DecidableRel strLE :=
  fun a b => inferInstanceAs (Decidable (_ = true))

theorem strLE_total (a b : String) : strLE a b ∨ strLE b a := charLeb_total _ _

theorem strLE_trans {a b c : String} : strLE a b → strLE b c → strLE a c :=
  charLeb_trans _ _ _

instance strLE.isTotal : IsTotal String strLE := ⟨strLE_total⟩

instance strLE.isTrans : IsTrans String strLE := ⟨fun _ _ _ => strLE_trans⟩

/-- Lexicographic sort key of `sort_values(by=["category", "name"])`. -/
def sortKey (c n : Option String) : ℕ × ℕ × String :=
  (catRank c, nameRank n, n.getD "")

/-- The lexicographic comparison of two sort keys. -/
def keyLE (x y : ℕ × ℕ × String) : Prop :=
  x.1 < y.1 ∨ (x.1 = y.1 ∧ (x.2.1 < y.2.1 ∨ (x.2.1 = y.2.1 ∧ strLE x.2.2 y.2.2)))

instance keyLE.decidable : ∀ x y, Decidable (keyLE x y) :=
  fun x y => by unfold keyLE; infer_instance

theorem keyLE_total : ∀ x y, keyLE x y ∨ keyLE y x := by
  intro x y
  unfold keyLE
  rcases lt_trichotomy x.1 y.1 with h | h | h
  · left; left; exact h
  · rcases lt_trichotomy x.2.1 y.2.1 with h2 | h2 | h2
    · left; right; exact ⟨h, Or.inl h2⟩
    · rcases strLE_total x.2.2 y.2.2 with h3 | h3
      · left; right; exact ⟨h, Or.inr ⟨h2, h3⟩⟩
      · right; right; exact ⟨h.symm, Or.inr ⟨h2.symm, h3⟩⟩
    · right; right; exact ⟨h.symm, Or.inl h2⟩
  · right; left; exact h

theorem keyLE_trans : ∀ x y z, keyLE x y → keyLE y z → keyLE x z := by
  intro x y z hxy hyz
  unfold keyLE at hxy hyz ⊢
  rcases hxy with h1 | ⟨e1, h1⟩
  · rcases hyz with h2 | ⟨e2, _⟩
    · exact Or.inl (lt_trans h1 h2)
    · exact Or.inl (e2 ▸ h1)
  · rcases hyz with h2 | ⟨e2, h2⟩
    · exact Or.inl (e1 ▸ h2)
    · refine Or.inr ⟨e1.trans e2, ?_⟩
      rcases h1 with h1 | ⟨f1, h1⟩
      · rcases h2 with h2 | ⟨f2, _⟩
        · exact Or.inl (lt_trans h1 h2)
        · exact Or.inl (f2 ▸ h1)
      · rcases h2 with h2 | ⟨f2, h2⟩
        · exact Or.inl (f1 ▸ h2)
        · exact Or.inr ⟨f1.trans f2, strLE_trans h1 h2⟩

def rawKey (r : RawItem) : ℕ × ℕ × String := sortKey r.category r.name

def itemKey (it : Item) : ℕ × ℕ × String := sortKey it.category it.name

def rawLE (a b : RawItem) : Prop := keyLE (rawKey a) (rawKey b)

def itemLE (a b : Item) : Prop := keyLE (itemKey a) (itemKey b)

instance rawLE.decidableRel : DecidableRel rawLE :=
  fun a b => inferInstanceAs (Decidable (keyLE _ _))

instance itemLE.decidableRel : DecidableRel itemLE :=
  fun a b => inferInstanceAs (Decidable (keyLE _ _))

instance rawLE.isTotal : IsTotal RawItem rawLE := ⟨fun a b => keyLE_total _ _⟩

instance rawLE.isTrans : IsTrans RawItem rawLE := ⟨fun _ _ _ => keyLE_trans _ _ _⟩

instance itemLE.isTotal : IsTotal Item itemLE := ⟨fun a b => keyLE_total _ _⟩

instance itemLE.isTrans : IsTrans Item itemLE := ⟨fun _ _ _ => keyLE_trans _ _ _⟩

/-- `read_worksheet_as_df` (`app.py` lines 78-93): build records from the
grid (first row is the header), synthesize missing expected columns as
missing values, cast `category` to the ordered enumeration, and sort by
(category, name). -/
def readWorksheetAsDf (grid : List (List String)) : List RawItem :=
  match grid with
  | [] => []
  | header :: records => List.insertionSort rawLE (records.map (rawOfRow header))

/-! ### Load-time coercions of `get_list_data` (`app.py` lines 176-185) -/

/-- `df.dropna(how='all')` on one row: drop it only when every cell is
missing. -/
def RawItem.allNA (r : RawItem) : Bool :=
  r.category.isNone && r.name.isNone && r.quantity.isNone &&
    r.unit.isNone && r.price.isNone && r.is_checked.isNone

/-- The `is_checked` coercion
`.replace({'TRUE': True, 'FALSE': False, '': False}).astype(bool)`: the three
listed texts map to their booleans, any other text is kept by `replace` and
then `astype(bool)` takes Python string truthiness (non-empty means `True`);
a missing value makes `astype(bool)` raise (`bool(pd.NA)` is ambiguous),
which aborts the load. -/
def coerceBool (c : Option String) : Except Unit Bool :=
  match c with
  | none => Except.error ()
  | some s => Except.ok
      (if s = "TRUE" then true else if s = "FALSE" then false else !(s == ""))

/-- The `price`/`quantity` coercion
`.astype(str).str.replace(',', '.')` followed by
`pd.to_numeric(errors='coerce').fillna(0.0)`: a missing value stringifies to
unparseable text, and every parse failure becomes `0.0`. -/
def decodeNum (c : Option String) : ℚ :=
  match c with
  | none => 0
  | some s => (parseDecimal (replaceChar s ',' '.')).getD 0

/-- The row coercion of `get_list_data`, with the boolean error propagated. -/
def coerceRow (r : RawItem) : Except Unit Item :=
  (coerceBool r.is_checked).map fun b =>
    { category := r.category, name := r.name, quantity := decodeNum r.quantity,
      unit := r.unit, price := decodeNum r.price, is_checked := b }

/-- Total variant of the row coercion (used to describe the successful case;
the default is irrelevant because success requires a present boolean cell). -/
def decodeRawD (r : RawItem) : Item :=
  { category := r.category, name := r.name, quantity := decodeNum r.quantity,
    unit := r.unit, price := decodeNum r.price,
    is_checked := ((coerceBool r.is_checked).map id).toOption.getD false }

/-- Column-wise coercion over all rows; any missing `is_checked` cell aborts
the whole load, as `astype(bool)` does on a column containing `pd.NA`. -/
def coerceRows : List RawItem → Except Unit (List Item)
  | [] => Except.ok []
  | r :: rs =>
    match coerceRow r, coerceRows rs with
    | Except.ok it, Except.ok its => Except.ok (it :: its)
    | Except.error e, _ => Except.error e
    | _, Except.error e => Except.error e

/-- `get_list_data` (`app.py` lines 176-185) on the stored grid of one list:
decode the grid, drop all-missing rows, coerce the boolean and the two
decimal columns. -/
def getListData (grid : List (List String)) : Except Unit (List Item) :=
  coerceRows ((readWorksheetAsDf grid).filter (fun r => !r.allNA))

/-! ### Encoding (`write_df_to_worksheet`, `app.py` lines 95-117) -/

/-- `df['category'].astype(str)`: a missing category renders as the text
`"nan"` (the pandas stringification of `NaN`). -/
def encodeCategory : Option String → String
  | none => "nan"
  | some c => c

/-- Booleans are stored as the sheet texts `TRUE`/`FALSE`. -/
def encodeBool (b : Bool) : String := if b then "TRUE" else "FALSE"

/-- `format_to_comma_string`: compact `"{:g}"` rendering with the decimal
point replaced by a comma. -/
def formatToCommaString (q : ℚ) : String := replaceChar (formatG q) '.' ','

/-- One written row: category as plain text, `fillna('')` on the text
columns, comma-decimal numerics, `TRUE`/`FALSE` booleans. -/
def encodeRow (it : Item) : List String :=
  [encodeCategory it.category, it.name.getD "", formatToCommaString it.quantity,
    it.unit.getD "", formatToCommaString it.price, encodeBool it.is_checked]

/-- `write_df_to_worksheet`: clear the sheet and write header plus data rows
starting at the top-left cell. -/
def writeDfToWorksheet (items : List Item) : List (List String) :=
  expectedCols :: items.map encodeRow

/-- A value survives the compact `"{:g}"` comma rendering followed by the
load-time decimal decoding (true exactly when six significant digits
suffice). -/
def gRT (q : ℚ) : Prop := decodeNum (some (formatToCommaString q)) = q

instance gRT.decidable (q : ℚ) : Decidable (gRT q) :=
  inferInstanceAs (Decidable (_ = _))

/-! ### The spreadsheet: titled worksheets -/

structure Sheet where
  title : String
  grid : List (List String)
deriving DecidableEq, Repr

abbrev SheetState := List Sheet

/-- The reserved default-tab names excluded from list enumeration. -/
def reservedTitles : List String := ["hoja1", "sheet1"]

def sheetTitles (s : SheetState) : List String := s.map (fun sh => sh.title)

/-- The non-reserved sheet titles, in sheet order. -/
def enumTitles (s : SheetState) : List String :=
  (sheetTitles s).filter (fun t => !(reservedTitles.contains (strToLower t)))

/-- `get_all_lists` (`app.py` lines 171-174): all sheet titles except the
reserved ones (case-insensitive), sorted ascending. -/
def getAllLists (s : SheetState) : List String :=
  List.insertionSort strLE (enumTitles s)

/-- `spreadsheet.worksheet(title)` returns the first sheet with the title. -/
def findSheet (s : SheetState) (t : String) : Option Sheet :=
  s.find? (fun sh => sh.title == t)

/-- `spreadsheet.del_worksheet` of the first sheet carrying a title. -/
def removeFirstTitle : SheetState → String → SheetState
  | [], _ => []
  | sh :: rest, t => if sh.title == t then rest else sh :: removeFirstTitle rest t

/-- Loading a named list goes through the stored grid of its sheet. -/
def getListDataOf (s : SheetState) (listName : String) : Except Unit (List Item) :=
  match findSheet s listName with
  | none => Except.error ()
  | some sh => getListData sh.grid

/-! ### List creation (`render_list_selector`, `app.py` lines 227-260) -/

/-- Convenience constructor for the hard-coded default template rows. -/
def tplItem (c n : String) (q : ℚ) (u : String) (p : ℚ) : Item :=
  { category := some c, name := some n, quantity := q, unit := some u,
    price := p, is_checked := false }

/-- `get_default_template` (`app.py` lines 119-169). -/
def defaultTemplateItems : List Item :=
  [tplItem "🥦 Verduras" "Tomates" 1 "kg" 0,
   tplItem "🥦 Verduras" "Cebollas" 3 "lb (Libra)" 0,
   tplItem "🥦 Verduras" "Papa harinosa" 6 "lb (Libra)" 12,
   tplItem "🥦 Verduras" "Papa holadesa" 3 "lb (Libra)" 6,
   tplItem "🥦 Verduras" "Platano" 6 "U (Unidad)" 10,
   tplItem "🥦 Verduras" "Zapallo" (1/2) "kg" 5,
   tplItem "🥦 Verduras" "lechuga carola" 2 "U (Unidad)" 13,
   tplItem "🥦 Verduras" "Brocoli" 1 "U (Unidad)" 8,
   tplItem "🥦 Verduras" "Espinaca" 2 "U (Unidad)" 8,
   tplItem "🥦 Verduras" "choclo" 6 "U (Unidad)" 20,
   tplItem "🍓 Frutas" "Guineo" 6 "U (Unidad)" 6,
   tplItem "🍓 Frutas" "Manzana" 4 "U (Unidad)" 10,
   tplItem "🍓 Frutas" "Pera" 3 "U (Unidad)" 10,
   tplItem "🍓 Frutas" "Limon cambita" 10 "U (Unidad)" 10,
   tplItem "🍓 Frutas" "Limon de licuar" 10 "U (Unidad)" 10,
   tplItem "🍓 Frutas" "Piña" 1 "U (Unidad)" 8,
   tplItem "🍓 Frutas" "Arandanos" 1 "U (Unidad)" 18,
   tplItem "🍓 Frutas" "Frutillas" 1 "U (Unidad)" 15,
   tplItem "🥩 Carnes" "Pollo" 2 "U (Unidad)" 90,
   tplItem "🥩 Carnes" "Pollo (Pechuga)" 1 "U (Unidad)" 26,
   tplItem "🥩 Carnes" "Bollo chico" 1 "kg" 70,
   tplItem "🛒 Abarrotes" "Arroz" 1 "kg" 0,
   tplItem "🛒 Abarrotes" "Huevo Maple" 1 "U (Unidad)" 24,
   tplItem "🛒 Abarrotes" "Quezo" (1/2) "kg" 22,
   tplItem "🛒 Abarrotes" "Fideo codito" 1 "kg" 8,
   tplItem "🛒 Abarrotes" "Fideo espiral" 1 "kg" 8,
   tplItem "🛒 Abarrotes" "Papel higuineco 24" 1 "U (Unidad)" 26,
   tplItem "🛒 Abarrotes" "Servilleta mesa" 1 "U (Unidad)" 15,
   tplItem "🛒 Abarrotes" "Servilleta cocina" 1 "U (Unidad)" 15,
   tplItem "🛒 Abarrotes" "Ajo cabeza" 1 "U (Unidad)" 2,
   tplItem "🛒 Abarrotes" "Quinua" (1/2) "kg" 10,
   tplItem "🛒 Abarrotes" "Azucar Morena" 1 "kg" 8,
   tplItem "🛒 Abarrotes" "Azucar Blanca" 1 "kg" 6,
   tplItem "🛒 Abarrotes" "Té frutas Pack" 1 "U (Unidad)" 25,
   tplItem "🛒 Abarrotes" "Té canela Pack" 1 "U (Unidad)" 12,
   tplItem "🛒 Abarrotes" "Té manzanilla Pack" 1 "U (Unidad)" 12,
   tplItem "🛒 Abarrotes" "Agua bebe" 3 "L (Litro)" 11,
   tplItem "🧼 Limpieza" "Detergente ropa adultos" 1 "U (Unidad)" 36,
   tplItem "🧼 Limpieza" "Detergente ropa bebe" 1 "U (Unidad)" 35,
   tplItem "🧼 Limpieza" "Detergente ropa platos" 1 "U (Unidad)" 25,
   tplItem "🧼 Limpieza" "Lavandina" 1 "U (Unidad)" 20,
   tplItem "🧼 Limpieza" "Trapo de piso" 1 "U (Unidad)" 6,
   tplItem "🧼 Limpieza" "jaboncillo adulto" 1 "U (Unidad)" 20,
   tplItem "🧼 Limpieza" "jaboncillo bebe" 1 "U (Unidad)" 20,
   tplItem "🧼 Limpieza" "Pañal bebe pack" 1 "U (Unidad)" 90,
   tplItem "🧼 Limpieza" "Bolsa de basura Grande pack" 1 "U (Unidad)" 10,
   tplItem "📦 Otros" "Agua bebe" 3 "L (Litro)" 11,
   tplItem "📦 Otros" "Pan Frances" 5 "U (Unidad)" 5]

/-- The three seeding modes of the creation form. -/
inductive Seed
  | emptySeed
  | defaultTemplate
  | copyOf (title : String)
deriving DecidableEq, Repr

inductive CreateErr
  | nameExists
  | seedMissing
deriving DecidableEq, Repr

/-- `pd.to_numeric(errors='coerce').fillna(0.0)` applied directly to a raw
cell, WITHOUT the comma-to-period replacement that `get_list_data` performs
(`app.py` lines 253-254 use the raw copied strings). -/
def rawToNumeric (c : Option String) : ℚ :=
  match c with
  | none => 0
  | some s => (parseDecimal s).getD 0

/-- The seed table built at `app.py` lines 245-254: the copy seed reads the
source sheet with `read_worksheet_as_df` only (raw comma-decimal text),
resets `price` to `0.0` and `is_checked` to `False`, and then both numeric
columns go through `pd.to_numeric(errors='coerce').fillna(0.0)`. -/
def seedItems (s : SheetState) (seed : Seed) : Except CreateErr (List Item) :=
  match seed with
  | Seed.emptySeed => Except.ok []
  | Seed.defaultTemplate => Except.ok defaultTemplateItems
  | Seed.copyOf t =>
    match findSheet s t with
    | none => Except.error CreateErr.seedMissing
    | some sh => Except.ok ((readWorksheetAsDf sh.grid).map (fun r =>
        { category := r.category, name := r.name,
          quantity := rawToNumeric r.quantity, unit := r.unit,
          price := 0, is_checked := false }))

/-- The eviction step (`app.py` lines 240-243): when ten or more lists are
enumerated, try to delete the sheet of the first (lexicographically
smallest) enumerated title; `evictOk = false` models the deletion raising,
which `except: pass` swallows, leaving the state unchanged. -/
def evictIfFull (s : SheetState) (evictOk : Bool) : SheetState :=
  if 10 ≤ (getAllLists s).length then
    if evictOk then
      match (getAllLists s).head? with
      | some t0 => removeFirstTitle s t0
      | none => s
    else s
  else s

/-- The create-list action of `render_list_selector` (`app.py` lines
235-256): refuse a name that already exists among the enumerated lists,
evict when at the cap, build the seed table and store it in a fresh sheet
appended under the new name. -/
def createList (s : SheetState) (name : String) (seed : Seed) (evictOk : Bool) :
    Except CreateErr SheetState :=
  if name ∈ getAllLists s then Except.error CreateErr.nameExists
  else
    match seedItems (evictIfFull s evictOk) seed with
    | Except.error e => Except.error e
    | Except.ok items =>
      Except.ok (evictIfFull s evictOk ++ [⟨name, writeDfToWorksheet items⟩])

/-! ### Immediate item actions (`app.py` lines 188-208) -/

/-- `delete_item`: reload the list, keep the rows whose `name` differs from
the given one, persist.  A row with a missing name would put a missing value
into the boolean mask `df['name'] != item_name` and make the indexing raise,
which the model reports as an error. -/
def deleteItem (grid : List (List String)) (itemName : String) :
    Except Unit (List (List String)) :=
  match getListData grid with
  | Except.error e => Except.error e
  | Except.ok items =>
    if items.any (fun it => it.name.isNone) then Except.error ()
    else Except.ok (writeDfToWorksheet (items.filter (fun it => it.name != some itemName)))

/-- The two widget fields wired to `save_instant_edit` (`app.py` lines
371-376 pass `'quantity'` or `'unit'`). -/
inductive EditValue
  | quantityVal (v : ℚ)
  | unitVal (v : String)
deriving DecidableEq, Repr

def applyEdit (e : EditValue) (it : Item) : Item :=
  match e with
  | EditValue.quantityVal v => { it with quantity := v }
  | EditValue.unitVal v => { it with unit := some v }

/-- `save_instant_edit`: reload the list, write the widget value into the
given column of every row whose `name` matches, persist the whole table.
As in `deleteItem`, a missing name in the mask makes the operation raise. -/
def saveInstantEdit (grid : List (List String)) (itemName : String) (e : EditValue) :
    Except Unit (List (List String)) :=
  match getListData grid with
  | Except.error err => Except.error err
  | Except.ok items =>
    if items.any (fun it => it.name.isNone) then Except.error ()
    else Except.ok (writeDfToWorksheet
      (items.map (fun it => if it.name == some itemName then applyEdit e it else it)))

/-- The shopping-view quick-add form (`app.py` lines 278-289): append one row
with the entered name, the selected category/quantity/unit, price `0.0` and
`is_checked` `False`, and persist the concatenated table.  No validation is
applied to the product name. -/
def quickAddShop (grid : List (List String)) (prodName catSel : String) (qty : ℚ)
    (unitSel : String) : Except Unit (List (List String)) :=
  match getListData grid with
  | Except.error e => Except.error e
  | Except.ok items => Except.ok (writeDfToWorksheet (items ++
      [{ category := some catSel, name := some prodName, quantity := qty,
         unit := some unitSel, price := 0, is_checked := false }]))

/-! ### Shopping totals (`render_list_editor`, `app.py` lines 320-330) -/

/-- The totals block: nothing is shown for an empty table or when no item is
checked; otherwise `bought.groupby("category")["price"].sum()` over the
ordered categorical yields one row per enumeration value (rows with a
missing category are dropped by `groupby`), the per-category table keeps only
the rows with a positive sum (`t_cat[t_cat["price"] > 0]`), and the metric
shows `bought['price'].sum()`. -/
def shopTotals (items : List Item) : Option (List (String × ℚ) × ℚ) :=
  if items.isEmpty then none
  else
    let bought := items.filter (fun it => it.is_checked)
    if bought.isEmpty then none
    else
      let tcat := (CATEGORIAS.map (fun c =>
        (c, ((bought.filter (fun it => it.category == some c)).map (fun it => it.price)).sum))).filter
        (fun p => decide (0 < p.2))
      some (tcat, (bought.map (fun it => it.price)).sum)

/-- Stated from the specification's words alone, for comparison with
`shopTotals`: filter to the checked items, group them by category, and sum
the price per group. -/
def specCheckedGroupTotals (items : List Item) : List (Option String × ℚ) :=
  let bought := items.filter (fun it => it.is_checked)
  ((bought.map (fun it => it.category)).dedup).map (fun c =>
    (c, ((bought.filter (fun it => it.category == c)).map (fun it => it.price)).sum))

/-- The positive per-category sums in enumeration order (what the totals
block actually displays). -/
def positiveCategoryTotals (items : List Item) : List (String × ℚ) :=
  CATEGORIAS.filterMap (fun c =>
    let s := ((items.filter (fun it => it.is_checked && it.category == some c)).map
      (fun it => it.price)).sum
    if 0 < s then some (c, s) else none)

/-! ### Structural lemmas about the load pipeline -/

theorem coerceRows_eq_map {m : List RawItem} (h : ∀ r ∈ m, r.is_checked.isSome) :
    coerceRows m = Except.ok (m.map decodeRawD) := by
  induction m with
  | nil => rfl
  | cons r rs ih =>
    obtain ⟨b, hb⟩ := Option.isSome_iff_exists.mp (h r (List.mem_cons_self r rs))
    have hrec := ih (fun x hx => h x (List.mem_cons_of_mem r hx))
    simp only [coerceRows, coerceRow, hrec, hb, List.map_cons]
    simp [decodeRawD, coerceBool, hb, Except.map, Except.toOption]

theorem coerceRows_ok_elim {m : List RawItem} {out : List Item}
    (h : coerceRows m = Except.ok out) :
    out = m.map decodeRawD ∧ ∀ r ∈ m, r.is_checked.isSome := by
  induction m generalizing out with
  | nil =>
    simp only [coerceRows] at h
    cases h
    exact ⟨rfl, by simp⟩
  | cons r rs ih =>
    simp only [coerceRows] at h
    cases hr : coerceRow r with
    | error e =>
      rw [hr] at h
      cases hrs : coerceRows rs with
      | error e2 => rw [hrs] at h; cases h
      | ok its => rw [hrs] at h; cases h
    | ok it =>
      rw [hr] at h
      cases hrs : coerceRows rs with
      | error e => rw [hrs] at h; cases h
      | ok its =>
        rw [hrs] at h
        cases h
        obtain ⟨hmap, hsome⟩ := ih hrs
        have hsome_r : r.is_checked.isSome := by
          cases hc : r.is_checked with
          | none => simp [coerceRow, coerceBool, hc, Except.map] at hr
          | some s => rfl
        have hit : it = decodeRawD r := by
          obtain ⟨s, hs⟩ := Option.isSome_iff_exists.mp hsome_r
          simp only [coerceRow, coerceBool, hs, Except.map] at hr
          cases hr
          simp [decodeRawD, coerceBool, hs, Except.map, Except.toOption]
        refine ⟨by rw [List.map_cons, hmap, hit], ?_⟩
        intro x hx
        rcases List.mem_cons.mp hx with hx | hx
        · exact hx ▸ hsome_r
        · exact hsome x hx

theorem itemKey_decodeRawD (r : RawItem) : itemKey (decodeRawD r) = rawKey r := rfl

/-- Every loaded item is the decoded image of some record row of the grid. -/
theorem mem_load_source {header : List String} {records : List (List String)}
    {items : List Item} (h : getListData (header :: records) = Except.ok items)
    {it : Item} (hit : it ∈ items) :
    ∃ row ∈ records, it = decodeRawD (rawOfRow header row) := by
  obtain ⟨hmap, _⟩ := coerceRows_ok_elim h
  subst hmap
  obtain ⟨r, hr, hdec⟩ := List.mem_map.mp hit
  have hr2 : r ∈ readWorksheetAsDf (header :: records) := List.mem_of_mem_filter hr
  have hr3 : r ∈ records.map (rawOfRow header) :=
    (List.mem_insertionSort rawLE).mp hr2
  obtain ⟨row, hrow, hrw⟩ := List.mem_map.mp hr3
  exact ⟨row, hrow, by rw [← hdec, ← hrw]⟩

/-- C3 groundwork: any successful load is sorted by the (category, name)
key. -/
theorem getListData_pairwise {grid : List (List String)} {items : List Item}
    (h : getListData grid = Except.ok items) : items.Pairwise itemLE := by
  obtain ⟨hmap, _⟩ := coerceRows_ok_elim h
  subst hmap
  refine List.pairwise_map.mpr ?_
  have hs : List.Pairwise rawLE (readWorksheetAsDf grid) := by
    cases grid with
    | nil => simp [readWorksheetAsDf]
    | cons header records => exact List.sorted_insertionSort rawLE _
  exact (hs.filter _).imp (fun {a b} hab => by
    simpa only [itemLE, itemKey_decodeRawD] using hab)

/-- A decoded category cell is always a member of the fixed enumeration:
`read_worksheet_as_df` casts everything else to a missing value. -/
theorem getListData_category_mem {grid : List (List String)} {items : List Item}
    (h : getListData grid = Except.ok items) {it : Item} (hit : it ∈ items)
    {c : String} (hc : it.category = some c) : c ∈ CATEGORIAS := by
  cases grid with
  | nil =>
    obtain ⟨hmap, _⟩ := coerceRows_ok_elim h
    subst hmap
    simp [readWorksheetAsDf] at hit
  | cons header records =>
    obtain ⟨row, _, hrw⟩ := mem_load_source h hit
    have : (rawOfRow header row).category = some c := by
      rw [hrw] at hc
      exact hc
    simp only [rawOfRow] at this
    cases hcell : cellAt header row "category" with
    | none => rw [hcell] at this; cases this
    | some c0 =>
      rw [hcell] at this
      simp only [Option.some_bind] at this
      by_cases hmem : c0 ∈ CATEGORIAS
      · rw [if_pos hmem] at this
        cases this
        exact hmem
      · rw [if_neg hmem] at this
        cases this

/-! ### Grids with the exact expected header -/

theorem get?_isSome_of_lt {α : Type} {l : List α} {n : ℕ} (h : n < l.length) :
    (l.get? n).isSome := by
  rw [List.get?_eq_get h]
  rfl

/-- Under the expected header, column access is positional. -/
theorem rawOfRow_expected (row : List String) :
    rawOfRow expectedCols row =
      { category := (row.get? 0).bind (fun c => if c ∈ CATEGORIAS then some c else none),
        name := row.get? 1, quantity := row.get? 2, unit := row.get? 3,
        price := row.get? 4, is_checked := row.get? 5 } := rfl

/-- Decoding a written row is positional on the six encoded cells. -/
theorem rawOfRow_encodeRow (it : Item) :
    rawOfRow expectedCols (encodeRow it) =
      { category := if encodeCategory it.category ∈ CATEGORIAS
            then some (encodeCategory it.category) else none,
        name := some (it.name.getD ""),
        quantity := some (formatToCommaString it.quantity),
        unit := some (it.unit.getD ""),
        price := some (formatToCommaString it.price),
        is_checked := some (encodeBool it.is_checked) } := rfl

/-- Decoding inverts encoding on an item whose name and unit are present,
whose category is normalised, and whose decimal fields survive the compact
rendering. -/
theorem decodeRawD_encodeRow (it : Item) (hname : it.name.isSome)
    (hunit : it.unit.isSome) (hcat : ∀ c, it.category = some c → c ∈ CATEGORIAS)
    (hq : gRT it.quantity) (hp : gRT it.price) :
    decodeRawD (rawOfRow expectedCols (encodeRow it)) = it := by
  obtain ⟨cat, nm, q, un, p, chk⟩ := it
  obtain ⟨n, hn⟩ := Option.isSome_iff_exists.mp hname
  obtain ⟨u, hu⟩ := Option.isSome_iff_exists.mp hunit
  rw [rawOfRow_encodeRow]
  simp only [decodeRawD, Item.mk.injEq]
  refine ⟨?_, ?_, hq, ?_, hp, ?_⟩
  · cases cat with
    | none => simp [encodeCategory, show "nan" ∉ CATEGORIAS from by decide]
    | some c => simp [encodeCategory, hcat c rfl]
  · rw [show nm = some n from hn]
    rfl
  · rw [show un = some u from hu]
    rfl
  · cases chk <;> rfl

theorem not_allNA_encodeRow (it : Item) :
    (rawOfRow expectedCols (encodeRow it)).allNA = false := by
  rw [rawOfRow_encodeRow]
  simp [RawItem.allNA]

theorem is_checked_isSome_encodeRow (it : Item) :
    (rawOfRow expectedCols (encodeRow it)).is_checked.isSome := by
  rw [rawOfRow_encodeRow]
  rfl

theorem readWorksheetAsDf_writeDf (items : List Item) :
    readWorksheetAsDf (writeDfToWorksheet items) =
      List.insertionSort rawLE
        (items.map (fun it => rawOfRow expectedCols (encodeRow it))) := by
  simp only [writeDfToWorksheet, readWorksheetAsDf, List.map_map]
  rfl

/-- Reloading what `write_df_to_worksheet` stored always succeeds and yields
a permutation of the written items, provided every written item has a
present name and unit, a normalised category, and decimal fields that
survive the compact rendering. -/
theorem getListData_writeDf_perm (items : List Item)
    (h : ∀ it ∈ items, it.name.isSome ∧ it.unit.isSome ∧
      (∀ c, it.category = some c → c ∈ CATEGORIAS) ∧ gRT it.quantity ∧ gRT it.price) :
    ∃ out, getListData (writeDfToWorksheet items) = Except.ok out ∧ out.Perm items := by
  have hfilter : (List.insertionSort rawLE
      (items.map (fun it => rawOfRow expectedCols (encodeRow it)))).filter
        (fun r => !r.allNA) =
      List.insertionSort rawLE (items.map (fun it => rawOfRow expectedCols (encodeRow it))) := by
    rw [List.filter_eq_self]
    intro a ha
    obtain ⟨it, _, rfl⟩ := List.mem_map.mp ((List.mem_insertionSort rawLE).mp ha)
    simp [not_allNA_encodeRow]
  have hsome : ∀ r ∈ List.insertionSort rawLE
      (items.map (fun it => rawOfRow expectedCols (encodeRow it))), r.is_checked.isSome := by
    intro a ha
    obtain ⟨it, _, rfl⟩ := List.mem_map.mp ((List.mem_insertionSort rawLE).mp ha)
    exact is_checked_isSome_encodeRow it
  refine ⟨_, by rw [getListData, readWorksheetAsDf_writeDf, hfilter, coerceRows_eq_map hsome], ?_⟩
  have hperm := (List.perm_insertionSort rawLE
    (items.map (fun it => rawOfRow expectedCols (encodeRow it)))).map decodeRawD
  refine hperm.trans ?_
  rw [List.map_map]
  have : items.map (decodeRawD ∘ fun it => rawOfRow expectedCols (encodeRow it)) =
      items.map id := by
    refine List.map_congr_left (fun it hit => ?_)
    obtain ⟨h1, h2, h3, h4, h5⟩ := h it hit
    exact decodeRawD_encodeRow it h1 h2 h3 h4 h5
  rw [this, List.map_id]

/-- When the written items were additionally sorted by the (category, name)
key, the reload reproduces them exactly. -/
theorem getListData_writeDf_eq (items : List Item)
    (hsorted : items.Pairwise itemLE)
    (h : ∀ it ∈ items, it.name.isSome ∧ it.unit.isSome ∧
      (∀ c, it.category = some c → c ∈ CATEGORIAS) ∧ gRT it.quantity ∧ gRT it.price) :
    getListData (writeDfToWorksheet items) = Except.ok items := by
  have hkey : ∀ it ∈ items, rawKey (rawOfRow expectedCols (encodeRow it)) = itemKey it := by
    intro it hit
    obtain ⟨h1, h2, h3, h4, h5⟩ := h it hit
    rw [← itemKey_decodeRawD, decodeRawD_encodeRow it h1 h2 h3 h4 h5]
  have hm_sorted : List.Pairwise rawLE
      (items.map (fun it => rawOfRow expectedCols (encodeRow it))) := by
    refine List.pairwise_map.mpr (hsorted.imp_of_mem (fun {a b} ha hb hab => ?_))
    show keyLE (rawKey _) (rawKey _)
    rw [hkey a ha, hkey b hb]
    exact hab
  have hfilter : (items.map (fun it => rawOfRow expectedCols (encodeRow it))).filter
        (fun r => !r.allNA) =
      items.map (fun it => rawOfRow expectedCols (encodeRow it)) := by
    rw [List.filter_eq_self]
    intro a ha
    obtain ⟨it, _, rfl⟩ := List.mem_map.mp ha
    simp [not_allNA_encodeRow]
  have hsome : ∀ r ∈ items.map (fun it => rawOfRow expectedCols (encodeRow it)),
      r.is_checked.isSome := by
    intro a ha
    obtain ⟨it, _, rfl⟩ := List.mem_map.mp ha
    exact is_checked_isSome_encodeRow it
  rw [getListData, readWorksheetAsDf_writeDf, List.Sorted.insertionSort_eq hm_sorted,
    hfilter, coerceRows_eq_map hsome, List.map_map]
  have : items.map (decodeRawD ∘ fun it => rawOfRow expectedCols (encodeRow it)) =
      items.map id := by
    refine List.map_congr_left (fun it hit => ?_)
    obtain ⟨h1, h2, h3, h4, h5⟩ := h it hit
    exact decodeRawD_encodeRow it h1 h2 h3 h4 h5
  rw [this, List.map_id]

/-- Reloading a written table always succeeds, and every written item
reappears in decoded form (no hypotheses: the stored boolean cells are
always present). -/
theorem getListData_writeDf_mem (items : List Item) :
    ∃ out, getListData (writeDfToWorksheet items) = Except.ok out ∧
      ∀ a ∈ items, decodeRawD (rawOfRow expectedCols (encodeRow a)) ∈ out := by
  have hfilter : (List.insertionSort rawLE
      (items.map (fun it => rawOfRow expectedCols (encodeRow it)))).filter
        (fun r => !r.allNA) =
      List.insertionSort rawLE (items.map (fun it => rawOfRow expectedCols (encodeRow it))) := by
    rw [List.filter_eq_self]
    intro a ha
    obtain ⟨it, _, rfl⟩ := List.mem_map.mp ((List.mem_insertionSort rawLE).mp ha)
    simp [not_allNA_encodeRow]
  have hsome : ∀ r ∈ List.insertionSort rawLE
      (items.map (fun it => rawOfRow expectedCols (encodeRow it))), r.is_checked.isSome := by
    intro a ha
    obtain ⟨it, _, rfl⟩ := List.mem_map.mp ((List.mem_insertionSort rawLE).mp ha)
    exact is_checked_isSome_encodeRow it
  refine ⟨_, by rw [getListData, readWorksheetAsDf_writeDf, hfilter, coerceRows_eq_map hsome],
    fun a ha => ?_⟩
  refine List.mem_map_of_mem decodeRawD ?_
  exact (List.mem_insertionSort rawLE).mpr (List.mem_map_of_mem _ ha)

/-- Loaded under the exact expected header from full-width rows, every item
has a present name and unit. -/
theorem load_expected_invariants {rows : List (List String)} {items : List Item}
    (hlen : ∀ r ∈ rows, r.length = 6)
    (h : getListData (expectedCols :: rows) = Except.ok items) :
    ∀ it ∈ items, it.name.isSome ∧ it.unit.isSome := by
  intro it hit
  obtain ⟨row, hrow, rfl⟩ := mem_load_source h hit
  have h6 := hlen row hrow
  rw [rawOfRow_expected]
  exact ⟨get?_isSome_of_lt (by omega), get?_isSome_of_lt (by omega)⟩

theorem catRank_lt_of_mem {c : String} (h : c ∈ CATEGORIAS) :
    catRank (some c) < CATEGORIAS.length := by
  fin_cases h <;> decide

/-! ### Claim C3 -/

/-- C3: for every set of stored rows, `load` returns the items sorted by the
category's position in the fixed 6-value enumeration and then by name
ascending, and every item whose category is outside the enumeration (which
decodes as a missing category) sorts after all items whose category is in
the enumeration. -/
theorem c3_load_sorted {grid : List (List String)} {items : List Item}
    (h : getListData grid = Except.ok items) :
    items.Pairwise itemLE ∧
    (∀ it ∈ items, ∀ c, it.category = some c → c ∈ CATEGORIAS) ∧
    items.Pairwise (fun a b => a.category = none → b.category = none) := by
  have hp := getListData_pairwise h
  refine ⟨hp, fun it hit c hc => getListData_category_mem h hit hc, ?_⟩
  refine hp.imp_of_mem (fun {a b} _ hb hab hnone => ?_)
  cases hcb : b.category with
  | none => rfl
  | some c =>
    exfalso
    have hrank : catRank (some c) < CATEGORIAS.length :=
      catRank_lt_of_mem (getListData_category_mem h hb hcb)
    have hle := hab
    rw [itemLE, itemKey, itemKey, hnone, hcb] at hle
    rcases hle with hlt | ⟨heq, _⟩
    · have : catRank (none : Option String) = CATEGORIAS.length := rfl
      rw [show (sortKey none a.name).1 = CATEGORIAS.length from rfl] at hlt
      have h2 : (sortKey (some c) b.name).1 = catRank (some c) := rfl
      rw [h2] at hlt
      omega
    · rw [show (sortKey none a.name).1 = CATEGORIAS.length from rfl,
        show (sortKey (some c) b.name).1 = catRank (some c) from rfl] at heq
      omega

/-- A concrete mixed grid: two enumeration categories out of order plus one
category outside the enumeration. -/
def c3exGrid : List (List String) :=
  [expectedCols,
   ["🍓 Frutas", "b", "1,5", "kg", "abc", "TRUE"],
   ["🥦 Verduras", "a", "2", "U (Unidad)", "3", "FALSE"],
   ["weird", "z", "", "", "", ""]]

/-- What the mixed grid loads to. -/
def c3exItems : List Item :=
  [{ category := some "🥦 Verduras", name := some "a", quantity := 2,
     unit := some "U (Unidad)", price := 3, is_checked := false },
   { category := some "🍓 Frutas", name := some "b", quantity := 3/2,
     unit := some "kg", price := 0, is_checked := true },
   { category := none, name := some "z", quantity := 0, unit := some "",
     price := 0, is_checked := false }]

/-- C3 witness: the concrete mixed grid loads in enumeration-then-name order
with the stranger category last. -/
theorem c3_load_sorted_witness :
    c3exItems.Pairwise itemLE ∧
    (∀ it ∈ c3exItems, ∀ c, it.category = some c → c ∈ CATEGORIAS) ∧
    c3exItems.Pairwise (fun a b => a.category = none → b.category = none) :=
  @c3_load_sorted c3exGrid c3exItems (by decide)

/-! ### Claim C8 -/

/-- C8 counterexample: `get_list_data` drops only all-missing rows; a grid
whose header lacks the `name` column decodes each data row with a missing
name, the row survives `dropna(how='all')` because its other cells are
present, and `load` returns an item without a name — contradicting the claim
that rows missing a name are dropped so that load never returns a nameless
item. -/
theorem c8_counterexample :
    getListData [["category", "quantity", "unit", "price", "is_checked"],
        ["🥦 Verduras", "1", "kg", "2", "TRUE"]] =
      Except.ok [{ category := some "🥦 Verduras", name := none, quantity := 1, unit := some "kg", price := 2, is_checked := true }] := by
  decide

/-- C8 amended: a decoded row is dropped only when every cell is missing, so
a row with a missing name alone is kept; still, whenever the grid's header
contains a `name` column (as every grid written by the application does),
every cell of that column is present and `load` never returns an item
without a name. -/
theorem c8_amended {header : List String} {rows : List (List String)}
    {items : List Item} (hname : "name" ∈ header)
    (hlen : ∀ r ∈ rows, r.length = header.length)
    (h : getListData (header :: rows) = Except.ok items) :
    ∀ it ∈ items, it.name.isSome := by
  intro it hit
  obtain ⟨row, hrow, rfl⟩ := mem_load_source h hit
  show (rawOfRow header row).name.isSome
  have hfind : header.findIdx? (fun x => x == "name") =
      some (header.findIdx (fun x => x == "name")) :=
    List.findIdx?_eq_some_of_exists ⟨"name", hname, by simp⟩
  have hlt : header.findIdx (fun x => x == "name") < header.length :=
    List.findIdx_lt_length_of_exists ⟨"name", hname, by simp⟩
  simp only [rawOfRow, cellAt, hfind, Option.some_bind]
  exact get?_isSome_of_lt (by rw [hlen row hrow]; exact hlt)

/-- The single-row decoded table used by the C8 witness. -/
def c8exItems : List Item :=
  [{ category := some "🥦 Verduras", name := some "a", quantity := 1,
     unit := some "kg", price := 2, is_checked := true }]

/-- C8 witness: under a header containing `name`, the loaded item carries a
name. -/
theorem c8_amended_witness :
    ({ category := some "🥦 Verduras", name := some "a", quantity := 1, unit := some "kg", price := 2, is_checked := true } : Item).name.isSome :=
  @c8_amended expectedCols [["🥦 Verduras", "a", "1", "kg", "2", "TRUE"]] c8exItems
    (by decide) (by decide) (by decide)
    { category := some "🥦 Verduras", name := some "a", quantity := 1, unit := some "kg", price := 2, is_checked := true }
    (by decide)

/-! ### Claim C4 -/

theorem coerceBool_other {s : String} (h1 : s ≠ "TRUE") (h2 : s ≠ "FALSE")
    (h3 : s ≠ "") : coerceBool (some s) = Except.ok true := by
  simp [coerceBool, h1, h2, h3]

/-- C4 counterexample: the claim says any unrecognized `is_checked` text
coerces to `false`, but `.astype(bool)` applies Python string truthiness, so
the non-empty unrecognized text `abc` loads as `true`. -/
theorem c4_counterexample :
    getListData [expectedCols, ["🥦 Verduras", "x", "1", "kg", "2", "abc"]] =
      Except.ok [{ category := some "🥦 Verduras", name := some "x", quantity := 1, unit := some "kg", price := 2, is_checked := true }] := by
  decide

/-- C4 (amended): the text `TRUE` loads as `true`, `FALSE` and the empty
cell load as `false`, any other non-empty text loads as `true` (string
truthiness), and a grid whose header lacks the `is_checked` column makes the
load fail (`astype(bool)` on a missing value raises) instead of defaulting
to `false`. -/
theorem c4_amended :
    (∀ s : String, s ≠ "TRUE" → s ≠ "FALSE" → s ≠ "" →
      getListData [expectedCols, ["", "x", "", "", "", s]] =
        Except.ok [{ category := none, name := some "x", quantity := 0, unit := some "", price := 0, is_checked := true }]) ∧
    getListData [expectedCols, ["", "x", "", "", "", "TRUE"]] =
      Except.ok [{ category := none, name := some "x", quantity := 0, unit := some "", price := 0, is_checked := true }] ∧
    getListData [expectedCols, ["", "x", "", "", "", "FALSE"]] =
      Except.ok [{ category := none, name := some "x", quantity := 0, unit := some "", price := 0, is_checked := false }] ∧
    getListData [expectedCols, ["", "x", "", "", "", ""]] =
      Except.ok [{ category := none, name := some "x", quantity := 0, unit := some "", price := 0, is_checked := false }] ∧
    getListData [["category", "name", "quantity", "unit", "price"], ["", "x", "", "", ""]] =
      Except.error () := by
  refine ⟨?_, by decide, by decide, by decide, by decide⟩
  intro s h1 h2 h3
  have hstep : getListData [expectedCols, ["", "x", "", "", "", s]] =
      coerceRows [rawOfRow expectedCols ["", "x", "", "", "", s]] := rfl
  rw [hstep]
  have hrow : rawOfRow expectedCols ["", "x", "", "", "", s] =
      { category := none, name := some "x", quantity := some "", unit := some "",
        price := some "", is_checked := some s } := rfl
  rw [hrow]
  simp only [coerceRows, coerceRow, coerceBool_other h1 h2 h3, Except.map]
  decide

/-- C4 witness: an arbitrary unrecognized non-empty text, here `yes`, loads
as checked. -/
theorem c4_amended_witness :
    getListData [expectedCols, ["", "x", "", "", "", "yes"]] =
      Except.ok [{ category := none, name := some "x", quantity := 0, unit := some "", price := 0, is_checked := true }] :=
  c4_amended.1 "yes" (by decide) (by decide) (by decide)

/-! ### Claim C5 -/

/-- C5: quantity and price cells decode by replacing the comma with a period
and parsing as a decimal number — `1,5` yields `1.5` — while empty,
missing or unparseable cells (such as `abc`) coerce to `0.0`; the load never
raises whatever the six cells contain. -/
theorem c5_decimal_coercion :
    (∀ c n q u p b : String, ∃ items,
      getListData [expectedCols, [c, n, q, u, p, b]] = Except.ok items) ∧
    getListData [expectedCols, ["", "x", "1,5", "", "abc", ""]] =
      Except.ok [{ category := none, name := some "x", quantity := 3/2, unit := some "", price := 0, is_checked := false }] ∧
    getListData [["category", "name", "unit", "is_checked"], ["🥦 Verduras", "x", "kg", "TRUE"]] =
      Except.ok [{ category := some "🥦 Verduras", name := some "x", quantity := 0, unit := some "kg", price := 0, is_checked := true }] := by
  refine ⟨?_, by decide, by decide⟩
  intro c n q u p b
  have hread : readWorksheetAsDf [expectedCols, [c, n, q, u, p, b]] =
      [rawOfRow expectedCols [c, n, q, u, p, b]] := rfl
  have hallNA : (rawOfRow expectedCols [c, n, q, u, p, b]).allNA = false := by
    rw [rawOfRow_expected]
    simp [RawItem.allNA]
  have hsome : ∀ r ∈ [rawOfRow expectedCols [c, n, q, u, p, b]], r.is_checked.isSome := by
    intro r hr
    rw [List.mem_singleton.mp hr, rawOfRow_expected]
    rfl
  refine ⟨[rawOfRow expectedCols [c, n, q, u, p, b]].map decodeRawD, ?_⟩
  rw [getListData, hread]
  rw [show ([rawOfRow expectedCols [c, n, q, u, p, b]].filter (fun r => !r.allNA)) =
      [rawOfRow expectedCols [c, n, q, u, p, b]] from by simp [hallNA]]
  exact coerceRows_eq_map hsome

/-- C5 witness: the totality statement instantiated at a grid row made of
unparseable cells. -/
theorem c5_decimal_coercion_witness :
    ∃ items, getListData [expectedCols, ["?", "", "?", "?", "?", "?"]] = Except.ok items :=
  c5_decimal_coercion.1 "?" "" "?" "?" "?" "?"

/-! ### Claim C1 -/

/-- C1 counterexample: the round trip loses decimal values that need more
than six significant digits.  A stored price `12345678` decodes to
`12345678`, but `"{:g}"` renders it as `1,23457e+07`, which decodes back to
`12345700` — the re-decoded decimal value differs from the original, so the
unrestricted round-trip claim fails. -/
theorem c1_counterexample :
    getListData [expectedCols, ["🥦 Verduras", "x", "1", "kg", "12345678", "TRUE"]] =
      Except.ok [{ category := some "🥦 Verduras", name := some "x", quantity := 1, unit := some "kg", price := 12345678, is_checked := true }] ∧
    writeDfToWorksheet [{ category := some "🥦 Verduras", name := some "x", quantity := 1, unit := some "kg", price := 12345678, is_checked := true }] =
      [expectedCols, ["🥦 Verduras", "x", "1", "kg", "1,23457e+07", "TRUE"]] ∧
    getListData [expectedCols, ["🥦 Verduras", "x", "1", "kg", "1,23457e+07", "TRUE"]] =
      Except.ok [{ category := some "🥦 Verduras", name := some "x", quantity := 1, unit := some "kg", price := 12345700, is_checked := true }] := by
  exact ⟨by decide, by decide, by decide⟩

/-- C1 (amended): for every well-formed grid under the expected header,
encoding the decoded table and decoding it again reproduces the decoded
records exactly — same decoded quantity, price and boolean, and also the
same category, name and unit — provided every decoded quantity and price
value survives the compact six-significant-digit rendering (`gRT`). -/
theorem c1_amended {rows : List (List String)} {items : List Item}
    (hlen : ∀ r ∈ rows, r.length = 6)
    (hload : getListData (expectedCols :: rows) = Except.ok items)
    (hq : ∀ it ∈ items, gRT it.quantity ∧ gRT it.price) :
    getListData (writeDfToWorksheet items) = Except.ok items := by
  have hinv := load_expected_invariants hlen hload
  refine getListData_writeDf_eq items (getListData_pairwise hload) (fun it hit => ?_)
  obtain ⟨h1, h2⟩ := hinv it hit
  exact ⟨h1, h2, fun c hc => getListData_category_mem hload hit hc,
    (hq it hit).1, (hq it hit).2⟩

/-- The witness grid of C1: fractional comma decimals, both booleans, rows
stored out of order. -/
def c1exRows : List (List String) :=
  [["🍓 Frutas", "b", "1,5", "kg", "0,5", "TRUE"],
   ["🥦 Verduras", "a", "2", "U (Unidad)", "3", "FALSE"]]

/-- What the C1 witness grid decodes to. -/
def c1exItems : List Item :=
  [{ category := some "🥦 Verduras", name := some "a", quantity := 2, unit := some "U (Unidad)", price := 3, is_checked := false },
   { category := some "🍓 Frutas", name := some "b", quantity := 3/2, unit := some "kg", price := 1/2, is_checked := true }]

/-- C1 witness: the round trip at the concrete witness grid. -/
theorem c1_amended_witness :
    getListData (writeDfToWorksheet c1exItems) = Except.ok c1exItems :=
  @c1_amended c1exRows c1exItems (by decide) (by decide) (by decide)

/-! ### Claim C9 -/

theorem itemKey_applyEdit (e : EditValue) (it : Item) :
    itemKey (applyEdit e it) = itemKey it := by
  cases e <;> rfl

/-- C9: `delete_item` removes exactly the rows whose name equals the given
name (all duplicate-named rows at once) and `save_instant_edit` writes the
new value into the given field of every row whose name equals the given
name; in both operations the persisted table — what a subsequent load
returns — keeps every non-matching row, and every other field of matching
rows, unchanged.  The load-time normalisation assumptions are explicit: the
grid carries the expected header, and the decimal values involved survive
the compact rendering. -/
theorem c9_update_by_name {rows : List (List String)} {items : List Item}
    (nm : String) (e : EditValue)
    (hlen : ∀ r ∈ rows, r.length = 6)
    (hload : getListData (expectedCols :: rows) = Except.ok items)
    (hq : ∀ it ∈ items, gRT it.quantity ∧ gRT it.price)
    (he : ∀ v, e = EditValue.quantityVal v → gRT v) :
    (deleteItem (expectedCols :: rows) nm =
        Except.ok (writeDfToWorksheet (items.filter (fun it => it.name != some nm))) ∧
      getListData (writeDfToWorksheet (items.filter (fun it => it.name != some nm))) =
        Except.ok (items.filter (fun it => it.name != some nm))) ∧
    (saveInstantEdit (expectedCols :: rows) nm e =
        Except.ok (writeDfToWorksheet
          (items.map (fun it => if it.name == some nm then applyEdit e it else it))) ∧
      getListData (writeDfToWorksheet
          (items.map (fun it => if it.name == some nm then applyEdit e it else it))) =
        Except.ok (items.map (fun it => if it.name == some nm then applyEdit e it else it))) := by
  have hinv := load_expected_invariants hlen hload
  have hguard : items.any (fun it => it.name.isNone) = false := by
    rw [List.any_eq_false]
    intro it hit
    obtain ⟨x, hx⟩ := Option.isSome_iff_exists.mp (hinv it hit).1
    simp [hx]
  have hsorted := getListData_pairwise hload
  have hall : ∀ it ∈ items, it.name.isSome ∧ it.unit.isSome ∧
      (∀ c, it.category = some c → c ∈ CATEGORIAS) ∧ gRT it.quantity ∧ gRT it.price := by
    intro it hit
    obtain ⟨h1, h2⟩ := hinv it hit
    exact ⟨h1, h2, fun c hc => getListData_category_mem hload hit hc,
      (hq it hit).1, (hq it hit).2⟩
  constructor
  · constructor
    · simp [deleteItem, hload, hguard]
    · refine getListData_writeDf_eq _ (hsorted.filter _) (fun it hit => ?_)
      exact hall it (List.mem_of_mem_filter hit)
  · constructor
    · simp [saveInstantEdit, hload, hguard]
    · have hkeyf : ∀ a : Item,
          itemKey (if a.name == some nm then applyEdit e a else a) = itemKey a := by
        intro a
        by_cases hm : (a.name == some nm) = true
        · rw [if_pos hm, itemKey_applyEdit]
        · rw [if_neg (by simpa using hm)]
      refine getListData_writeDf_eq _ ?_ (fun it hit => ?_)
      · refine List.pairwise_map.mpr (hsorted.imp ?_)
        intro a b hab
        show keyLE (itemKey _) (itemKey _)
        rw [hkeyf a, hkeyf b]
        exact hab
      · obtain ⟨a, ha, rfl⟩ := List.mem_map.mp hit
        obtain ⟨h1, h2, h3, h4, h5⟩ := hall a ha
        by_cases hm : (a.name == some nm) = true
        · rw [if_pos hm]
          cases e with
          | quantityVal v =>
            exact ⟨h1, h2, h3, he v rfl, h5⟩
          | unitVal v =>
            exact ⟨h1, by rfl, h3, h4, h5⟩
        · rw [if_neg (by simpa using hm)]
          exact ⟨h1, h2, h3, h4, h5⟩

/-- The C9 witness grid: two rows named `a` in different categories plus one
row named `b`. -/
def c9exRows : List (List String) :=
  [["🥦 Verduras", "a", "1", "kg", "2", "TRUE"],
   ["🍓 Frutas", "a", "1", "kg", "2", "FALSE"],
   ["🥩 Carnes", "b", "1", "kg", "2", "FALSE"]]

/-- What the C9 witness grid decodes to. -/
def c9exItems : List Item :=
  [{ category := some "🥦 Verduras", name := some "a", quantity := 1, unit := some "kg", price := 2, is_checked := true },
   { category := some "🍓 Frutas", name := some "a", quantity := 1, unit := some "kg", price := 2, is_checked := false },
   { category := some "🥩 Carnes", name := some "b", quantity := 1, unit := some "kg", price := 2, is_checked := false }]

/-- C9 witness: deleting name `a` drops both duplicate rows and keeps `b`;
the instant quantity edit updates both rows named `a`. -/
theorem c9_update_by_name_witness :
    (deleteItem (expectedCols :: c9exRows) "a" =
        Except.ok (writeDfToWorksheet (c9exItems.filter (fun it => it.name != some "a"))) ∧
      getListData (writeDfToWorksheet (c9exItems.filter (fun it => it.name != some "a"))) =
        Except.ok (c9exItems.filter (fun it => it.name != some "a"))) ∧
    (saveInstantEdit (expectedCols :: c9exRows) "a" (EditValue.quantityVal (7/2)) =
        Except.ok (writeDfToWorksheet (c9exItems.map
          (fun it => if it.name == some "a" then applyEdit (EditValue.quantityVal (7/2)) it else it))) ∧
      getListData (writeDfToWorksheet (c9exItems.map
          (fun it => if it.name == some "a" then applyEdit (EditValue.quantityVal (7/2)) it else it))) =
        Except.ok (c9exItems.map
          (fun it => if it.name == some "a" then applyEdit (EditValue.quantityVal (7/2)) it else it))) :=
  @c9_update_by_name c9exRows c9exItems "a" (EditValue.quantityVal (7/2))
    (by decide) (by decide) (by decide)
    (fun v hv => by cases hv; decide)

/-! ### Claim C10 -/

/-- C10: submitting the shopping-view quick-add form with an empty product
name still appends and persists a row whose name is the empty string, with
the selected category, quantity and unit, price `0.0` and `is_checked`
`false`: the empty name passes undisturbed through the write and the next
load returns it. -/
theorem c10_quick_add_empty_name {grid : List (List String)} {items : List Item}
    (catSel : String) (qty : ℚ) (unitSel : String)
    (hload : getListData grid = Except.ok items)
    (hcat : catSel ∈ CATEGORIAS) (hq : gRT qty) :
    ∃ items2,
      quickAddShop grid "" catSel qty unitSel = Except.ok (writeDfToWorksheet (items ++
        [{ category := some catSel, name := some "", quantity := qty, unit := some unitSel, price := 0, is_checked := false }])) ∧
      getListData (writeDfToWorksheet (items ++
        [{ category := some catSel, name := some "", quantity := qty, unit := some unitSel, price := 0, is_checked := false }])) =
        Except.ok items2 ∧
      ({ category := some catSel, name := some "", quantity := qty, unit := some unitSel, price := 0, is_checked := false } : Item) ∈ items2 := by
  obtain ⟨out, hout, hmem⟩ := getListData_writeDf_mem (items ++
    [{ category := some catSel, name := some "", quantity := qty, unit := some unitSel,
       price := 0, is_checked := false }])
  refine ⟨out, by simp [quickAddShop, hload], hout, ?_⟩
  have hzero : gRT (0 : ℚ) := by decide
  have hm := hmem _ (List.mem_append_right items (List.mem_singleton_self _))
  rwa [decodeRawD_encodeRow _ (by rfl) (by rfl)
    (fun c hc => by cases hc; exact hcat) hq hzero] at hm

/-- C10 witness: quick-adding an empty-named row to an empty list persists
a row whose name is the empty string. -/
theorem c10_quick_add_empty_name_witness :
    ∃ items2,
      quickAddShop [expectedCols] "" "🥦 Verduras" 2 "kg" = Except.ok (writeDfToWorksheet ([] ++
        [{ category := some "🥦 Verduras", name := some "", quantity := 2, unit := some "kg", price := 0, is_checked := false }])) ∧
      getListData (writeDfToWorksheet ([] ++
        [{ category := some "🥦 Verduras", name := some "", quantity := 2, unit := some "kg", price := 0, is_checked := false }])) =
        Except.ok items2 ∧
      ({ category := some "🥦 Verduras", name := some "", quantity := 2, unit := some "kg", price := 0, is_checked := false } : Item) ∈ items2 :=
  @c10_quick_add_empty_name [expectedCols] [] "🥦 Verduras" 2 "kg"
    (by decide) (by decide) (by decide)

/-! ### Claim C7 -/

/-- The single checked zero-priced item used against C7. -/
def c7cexItems : List Item :=
  [{ category := some "🥦 Verduras", name := some "x", quantity := 1, unit := some "kg", price := 0, is_checked := true }]

/-- C7 counterexample: with one checked zero-priced item, grouping the
checked items by category and summing per group (the claim's description,
`specCheckedGroupTotals`) yields the row (Verduras, 0), but the totals block
filters per-category sums to the strictly positive ones and displays an
empty breakdown. -/
theorem c7_counterexample :
    shopTotals c7cexItems = some ([], 0) ∧
    specCheckedGroupTotals c7cexItems = [(some "🥦 Verduras", 0)] := by
  exact ⟨by decide, by decide⟩

/-- Map-then-filter over the positive group sums coincides with the
`filterMap` presentation. -/
theorem filter_pos_groups (l : List String) (items : List Item) :
    ((l.map (fun c =>
        (c, (((items.filter (fun it => it.is_checked)).filter
          (fun it => it.category == some c)).map (fun it => it.price)).sum))).filter
      (fun p => decide (0 < p.2))) =
    l.filterMap (fun c =>
      let s := ((items.filter (fun it => it.is_checked && it.category == some c)).map
        (fun it => it.price)).sum
      if 0 < s then some (c, s) else none) := by
  induction l with
  | nil => rfl
  | cons c t ih =>
    have hsum : (items.filter (fun it => it.is_checked)).filter
          (fun it => it.category == some c) =
        items.filter (fun it => it.is_checked && it.category == some c) := by
      rw [List.filter_filter]
      exact List.filter_congr (fun a _ => Bool.and_comm _ _)
    simp only [List.map_cons, List.filter_cons, List.filterMap_cons, hsum, ih]
    by_cases hp : 0 < ((items.filter (fun it => it.is_checked && it.category == some c)).map
        (fun it => it.price)).sum
    · simp [hp]
    · simp [hp]

/-- C7 (amended): the totals block reports nothing exactly when no item is
checked; otherwise the grand total is the sum of `price` over all checked
items, and the per-category breakdown consists of the checked per-category
sums restricted to the enumeration categories with a strictly positive sum,
in enumeration order. -/
theorem c7_amended (items : List Item) :
    (shopTotals items = none ↔ items.filter (fun it => it.is_checked) = []) ∧
    (∀ pc g, shopTotals items = some (pc, g) →
      g = ((items.filter (fun it => it.is_checked)).map (fun it => it.price)).sum ∧
      pc = positiveCategoryTotals items ∧
      ∀ p ∈ pc, p.1 ∈ CATEGORIAS ∧ 0 < p.2) := by
  by_cases h0 : items = []
  · subst h0
    exact ⟨by simp [shopTotals], fun pc g h => by simp [shopTotals] at h⟩
  · have hne : items.isEmpty = false := by simpa [List.isEmpty_iff] using h0
    by_cases hb : items.filter (fun it => it.is_checked) = []
    · refine ⟨by simp [shopTotals, hne, hb], fun pc g h => ?_⟩
      rw [shopTotals] at h
      simp [hne, hb] at h
    · have hbne : (items.filter (fun it => it.is_checked)).isEmpty = false := by
        simpa [List.isEmpty_iff] using hb
      constructor
      · simp [shopTotals, hne, hbne, hb]
      · intro pc g h
        simp only [shopTotals, hne, hbne, Bool.false_eq_true, if_false,
          Option.some.injEq, Prod.mk.injEq] at h
        obtain ⟨hpc, hg⟩ := h
        refine ⟨hg.symm, ?_, ?_⟩
        · rw [← hpc]
          exact filter_pos_groups CATEGORIAS items
        · intro p hp
          rw [← hpc] at hp
          obtain ⟨hmem, hpos⟩ := List.mem_filter.mp hp
          obtain ⟨c, hc, rfl⟩ := List.mem_map.mp hmem
          exact ⟨hc, by simpa using hpos⟩

/-- The specification's three-item aggregation example, with A and B taken
as the first two enumeration categories. -/
def c7exItems : List Item :=
  [{ category := some "🥦 Verduras", name := some "i1", quantity := 1, unit := some "kg", price := 10, is_checked := true },
   { category := some "🥦 Verduras", name := some "i2", quantity := 1, unit := some "kg", price := 5, is_checked := false },
   { category := some "🍓 Frutas", name := some "i3", quantity := 1, unit := some "kg", price := 3, is_checked := true }]

/-- C7 witness: on the specification's example the per-category totals are
A = 10 and B = 3 and the grand total is 13. -/
theorem c7_amended_witness :
    (13 : ℚ) = ((c7exItems.filter (fun it => it.is_checked)).map (fun it => it.price)).sum ∧
    [("🥦 Verduras", (10 : ℚ)), ("🍓 Frutas", 3)] = positiveCategoryTotals c7exItems ∧
    ∀ p ∈ [("🥦 Verduras", (10 : ℚ)), ("🍓 Frutas", 3)], p.1 ∈ CATEGORIAS ∧ 0 < p.2 :=
  (c7_amended c7exItems).2 [("🥦 Verduras", 10), ("🍓 Frutas", 3)] 13 (by decide)

/-! ### Claim C2 -/

theorem enumTitles_append (s : SheetState) (sh : Sheet) :
    enumTitles (s ++ [sh]) = enumTitles s ++ enumTitles [sh] := by
  simp [enumTitles, sheetTitles, List.filter_append]

theorem enumTitles_cons_keep (sh : Sheet) (rest : SheetState)
    (h : reservedTitles.contains (strToLower sh.title) = false) :
    enumTitles (sh :: rest) = sh.title :: enumTitles rest := by
  unfold enumTitles sheetTitles
  simp only [List.map_cons, List.filter_cons]
  rw [h]
  rfl

theorem enumTitles_cons_drop (sh : Sheet) (rest : SheetState)
    (h : reservedTitles.contains (strToLower sh.title) = true) :
    enumTitles (sh :: rest) = enumTitles rest := by
  unfold enumTitles sheetTitles
  simp only [List.map_cons, List.filter_cons]
  rw [h]
  rfl

theorem enumTitles_singleton_of_ok {sh : Sheet}
    (h : reservedTitles.contains (strToLower sh.title) = false) :
    enumTitles [sh] = [sh.title] := by
  rw [enumTitles_cons_keep sh [] h]
  rfl

theorem enumTitles_removeFirstTitle (s : SheetState) (t0 : String)
    (ht : reservedTitles.contains (strToLower t0) = false) :
    enumTitles (removeFirstTitle s t0) = (enumTitles s).erase t0 := by
  induction s with
  | nil => rfl
  | cons sh rest ih =>
    rw [removeFirstTitle]
    by_cases heq : (sh.title == t0) = true
    · rw [if_pos heq]
      have htt : sh.title = t0 := by simpa using heq
      have h1 : enumTitles (sh :: rest) = t0 :: enumTitles rest := by
        rw [enumTitles_cons_keep sh rest (htt ▸ ht), htt]
      rw [h1, List.erase_cons_head]
    · rw [if_neg heq]
      by_cases hres : reservedTitles.contains (strToLower sh.title) = true
      · rw [enumTitles_cons_drop sh (removeFirstTitle rest t0) hres,
          enumTitles_cons_drop sh rest hres, ih]
      · have hres2 : reservedTitles.contains (strToLower sh.title) = false := by
          simpa using hres
        rw [enumTitles_cons_keep sh (removeFirstTitle rest t0) hres2,
          enumTitles_cons_keep sh rest hres2, ih, List.erase_cons_tail heq]

theorem getAllLists_perm (s : SheetState) : (getAllLists s).Perm (enumTitles s) :=
  List.perm_insertionSort _ _

theorem mem_enumTitles_not_reserved {s : SheetState} {t : String}
    (h : t ∈ enumTitles s) : reservedTitles.contains (strToLower t) = false := by
  have := (List.mem_filter.mp h).2
  simpa using this

theorem getAllLists_nodup {s : SheetState} (h : (sheetTitles s).Nodup) :
    (getAllLists s).Nodup :=
  ((getAllLists_perm s).symm).nodup (h.filter _)

/-- C2 counterexample: eleven lists can be enumerated (the cap is only
enforced by this one deletion, and tabs can appear out of band); creating a
twelfth with eviction succeeding deletes exactly one list, so the enumerated
total after creation is eleven, not the ten the claim states. -/
def c2cexSheets : SheetState :=
  [⟨"La", [expectedCols]⟩, ⟨"Lb", [expectedCols]⟩, ⟨"Lc", [expectedCols]⟩,
   ⟨"Ld", [expectedCols]⟩, ⟨"Le", [expectedCols]⟩, ⟨"Lf", [expectedCols]⟩,
   ⟨"Lg", [expectedCols]⟩, ⟨"Lh", [expectedCols]⟩, ⟨"Li", [expectedCols]⟩,
   ⟨"Lj", [expectedCols]⟩, ⟨"Lk", [expectedCols]⟩]

/-- The state after creating `M` over eleven existing lists. -/
def c2cexAfter : SheetState :=
  [⟨"Lb", [expectedCols]⟩, ⟨"Lc", [expectedCols]⟩, ⟨"Ld", [expectedCols]⟩,
   ⟨"Le", [expectedCols]⟩, ⟨"Lf", [expectedCols]⟩, ⟨"Lg", [expectedCols]⟩,
   ⟨"Lh", [expectedCols]⟩, ⟨"Li", [expectedCols]⟩, ⟨"Lj", [expectedCols]⟩,
   ⟨"Lk", [expectedCols]⟩, ⟨"M", [expectedCols]⟩]

/-- C2 counterexample theorem: with eleven enumerated lists, creation
succeeds, deletes only the smallest title, and leaves eleven enumerated
lists — refuting "the enumerated total after creation is 10". -/
theorem c2_counterexample :
    (getAllLists c2cexSheets).length = 11 ∧
    createList c2cexSheets "M" Seed.emptySeed true = Except.ok c2cexAfter ∧
    (getAllLists c2cexAfter).length = 11 := by
  exact ⟨by decide, by decide, by decide⟩

/-- C2 (amended): creating a list with an unused non-reserved name while at
least ten lists are enumerated deletes exactly the lexicographically
smallest enumerated list (when that deletion succeeds) before adding the new
one, so the enumerated total equals the prior count — ten exactly when ten
existed; a failed eviction deletion is silently swallowed (`except: pass`,
nothing is reported) and creation still proceeds, leaving the prior count
plus one. -/
theorem c2_amended (s : SheetState) (name : String) (seed : Seed) (evictOk : Bool)
    (s2 : SheetState)
    (hnodup : (sheetTitles s).Nodup)
    (hnew : name ∉ getAllLists s)
    (hres : reservedTitles.contains (strToLower name) = false)
    (hlen : 10 ≤ (getAllLists s).length)
    (hok : createList s name seed evictOk = Except.ok s2) :
    (evictOk = true →
      (getAllLists s2).Perm (name :: (getAllLists s).tail) ∧
      (getAllLists s2).length = (getAllLists s).length ∧
      ∀ t0, (getAllLists s).head? = some t0 → t0 ∉ getAllLists s2) ∧
    (evictOk = false →
      (getAllLists s2).Perm (name :: getAllLists s) ∧
      (getAllLists s2).length = (getAllLists s).length + 1) := by
  unfold createList at hok
  rw [if_neg hnew] at hok
  cases hseed : seedItems (evictIfFull s evictOk) seed with
  | error e => rw [hseed] at hok; cases hok
  | ok its =>
    rw [hseed] at hok
    have hs2 : s2 = evictIfFull s evictOk ++ [⟨name, writeDfToWorksheet its⟩] :=
      (Except.ok.inj hok).symm
    subst hs2
    constructor
    · intro hev
      subst hev
      obtain ⟨t0, tl, htl⟩ : ∃ t0 tl, getAllLists s = t0 :: tl := by
        cases hgl : getAllLists s with
        | nil => rw [hgl] at hlen; simp at hlen
        | cons t0 tl => exact ⟨t0, tl, rfl⟩
      have hhead : (getAllLists s).head? = some t0 := by rw [htl]; rfl
      have hevict : evictIfFull s true = removeFirstTitle s t0 := by
        unfold evictIfFull
        rw [if_pos hlen, if_pos rfl, hhead]
      have ht0mem : t0 ∈ enumTitles s :=
        ((getAllLists_perm s).mem_iff).mp (by rw [htl]; exact List.mem_cons_self t0 tl)
      have ht0res := mem_enumTitles_not_reserved ht0mem
      have henum : enumTitles (evictIfFull s true ++ [⟨name, writeDfToWorksheet its⟩]) =
          (enumTitles s).erase t0 ++ [name] := by
        rw [enumTitles_append, hevict, enumTitles_removeFirstTitle s t0 ht0res,
          enumTitles_singleton_of_ok hres]
      have hperm : (getAllLists (evictIfFull s true ++
          [⟨name, writeDfToWorksheet its⟩])).Perm (name :: tl) := by
        refine ((getAllLists_perm _).trans ?_)
        rw [henum]
        refine (List.perm_append_singleton name _).trans ?_
        refine List.Perm.cons name ?_
        have h1 : ((enumTitles s).erase t0).Perm ((getAllLists s).erase t0) :=
          ((getAllLists_perm s).symm).erase t0
        refine h1.trans ?_
        rw [htl, List.erase_cons_head]
      have hlen2 : (getAllLists (evictIfFull s true ++
          [⟨name, writeDfToWorksheet its⟩])).length = (getAllLists s).length := by
        rw [hperm.length_eq, htl]
        simp
      refine ⟨by rw [htl]; exact hperm, hlen2, ?_⟩
      intro t0' hh'
      have ht0eq : t0' = t0 := by
        rw [hhead] at hh'
        exact (Option.some.inj hh').symm
      subst ht0eq
      intro hmem
      have hm2 := hperm.mem_iff.mp hmem
      rcases List.mem_cons.mp hm2 with h | h
      · have hmem_s : t0' ∈ getAllLists s := by
          rw [htl]
          exact List.mem_cons_self _ _
        rw [h] at hmem_s
        exact hnew hmem_s
      · have hnd := getAllLists_nodup hnodup
        rw [htl] at hnd
        exact (List.nodup_cons.mp hnd).1 h
    · intro hev
      subst hev
      have hevict : evictIfFull s false = s := by
        unfold evictIfFull
        rw [if_pos hlen, if_neg (by simp)]
      have henum : enumTitles (evictIfFull s false ++ [⟨name, writeDfToWorksheet its⟩]) =
          enumTitles s ++ [name] := by
        rw [enumTitles_append, hevict, enumTitles_singleton_of_ok hres]
      have hperm : (getAllLists (evictIfFull s false ++
          [⟨name, writeDfToWorksheet its⟩])).Perm (name :: getAllLists s) := by
        refine ((getAllLists_perm _).trans ?_)
        rw [henum]
        refine (List.perm_append_singleton name _).trans ?_
        exact List.Perm.cons name ((getAllLists_perm s).symm)
      exact ⟨hperm, by rw [hperm.length_eq]; rfl⟩

/-- Ten lists at the cap, for the C2 witness. -/
def c2exSheets : SheetState :=
  [⟨"L01", [expectedCols]⟩, ⟨"L02", [expectedCols]⟩, ⟨"L03", [expectedCols]⟩,
   ⟨"L04", [expectedCols]⟩, ⟨"L05", [expectedCols]⟩, ⟨"L06", [expectedCols]⟩,
   ⟨"L07", [expectedCols]⟩, ⟨"L08", [expectedCols]⟩, ⟨"L09", [expectedCols]⟩,
   ⟨"L10", [expectedCols]⟩]

/-- The state after the witness creation: `L01` evicted, `M` appended. -/
def c2exAfter : SheetState :=
  [⟨"L02", [expectedCols]⟩, ⟨"L03", [expectedCols]⟩, ⟨"L04", [expectedCols]⟩,
   ⟨"L05", [expectedCols]⟩, ⟨"L06", [expectedCols]⟩, ⟨"L07", [expectedCols]⟩,
   ⟨"L08", [expectedCols]⟩, ⟨"L09", [expectedCols]⟩, ⟨"L10", [expectedCols]⟩,
   ⟨"M", [expectedCols]⟩]

/-- C2 witness: at exactly ten lists, creation evicts the smallest title and
keeps the enumerated count at ten. -/
theorem c2_amended_witness :
    (getAllLists c2exAfter).Perm ("M" :: (getAllLists c2exSheets).tail) ∧
    (getAllLists c2exAfter).length = (getAllLists c2exSheets).length ∧
    (∀ t0, (getAllLists c2exSheets).head? = some t0 → t0 ∉ getAllLists c2exAfter) :=
  (c2_amended c2exSheets "M" Seed.emptySeed true c2exAfter
    (by decide) (by decide) (by decide) (by decide) (by decide)).1 rfl

/-! ### Claim C6 -/

/-- The source list of the C6 copy: one item, quantity `1.5` stored in the
comma format the writer itself produces, price `3`, unchecked. -/
def c6srcSheet : Sheet :=
  ⟨"L", [expectedCols, ["🥦 Verduras", "Zapallo", "1,5", "kg", "3", "FALSE"]]⟩

/-- C6: copying list `L` into a new list `M` must keep every row's name,
category, quantity and unit while resetting price and checked state.  The
code reads the source grid raw (comma decimals) and then applies
`pd.to_numeric` WITHOUT the comma-to-period replacement, so the quantity
text `1,5` coerces to `0.0`: the persisted copy stores quantity `0`, and
loading `M` yields quantity `0` where `L` loads as `1.5`.  Name, category,
unit, the price reset and the checked reset all behave as claimed — only
the quantity is corrupted, which this theorem evaluates at the failing
input. -/
theorem c6_copy_quantity_bug :
    getListData c6srcSheet.grid =
      Except.ok [{ category := some "🥦 Verduras", name := some "Zapallo", quantity := 3/2, unit := some "kg", price := 3, is_checked := false }] ∧
    createList [c6srcSheet] "M" (Seed.copyOf "L") true =
      Except.ok [c6srcSheet, ⟨"M", [expectedCols, ["🥦 Verduras", "Zapallo", "0", "kg", "0", "FALSE"]]⟩] ∧
    getListData [expectedCols, ["🥦 Verduras", "Zapallo", "0", "kg", "0", "FALSE"]] =
      Except.ok [{ category := some "🥦 Verduras", name := some "Zapallo", quantity := 0, unit := some "kg", price := 0, is_checked := false }] := by
  exact ⟨by decide, by decide, by decide⟩

end ListaCompras
